import Mathlib

/-!
Shallow embedding of the upload-progress subsystem of `src/admin/admin.js`
(ERRORoX/Magazin): the presentation formatters (`formatBytes`,
`shortFileName`), the transfer-state record (`UploadState`), the
transport progress handler, the completion/error handlers, the display
smoother (`animateUploadProgress`) and the two-file upload orchestration
of `saveProduct`, together with theorems settling the specification's
claims about them.

Numbers are embedded as `ℚ` (the JS code computes with numbers and the
properties at stake are structural, not float-precision-dependent);
byte counts handed to `formatBytes` are `ℕ`.
-/

namespace Magazin

/-- `formatBytes(bytes)` — admin.js lines 453-460.  `Math.floor(Math.log
bytes / Math.log 1024)` on a positive integer is `Nat.log 1024 bytes`;
`v.toFixed(1)` with the trailing `.0` trimmed is rendered through the
rounded count of tenths; an out-of-range unit lookup (`sizes[i]` with
`i ≥ 4`) is JavaScript `undefined`, which string-concatenates as
`"undefined"`. -/
def formatBytes (bytes : ℕ) : String :=
  if bytes = 0 then "0 Б"
  else
    let k : ℕ := 1024
    let sizes : List String := ["Б", "КБ", "МБ", "ГБ"]
    let i : ℕ := Nat.log k bytes
    let v : ℚ := (bytes : ℚ) / (k : ℚ) ^ i
    let num : String :=
      if i = 0 then toString bytes
      else
        let tenths : ℤ := round (v * 10)
        let whole : ℤ := tenths / 10
        let frac : ℤ := tenths % 10
        if frac = 0 then toString whole else toString whole ++ "." ++ toString frac
    num ++ " " ++ ((sizes[i]?).getD "undefined")

/-- Index of the last `'.'` in a character list (JS `String.lastIndexOf`),
`none` when absent. -/
def lastDotIndex (cs : List Char) : Option ℕ :=
  match List.findIdx? (fun c => c == '.') cs.reverse with
  | some j => some (cs.length - 1 - j)
  | none => none

/-- `shortFileName(name, maxLen)` — admin.js lines 462-474.  The JS
default `maxLen = maxLen || 42` is modelled by mapping `0` (the
"absent" argument) to `42`.  The `!name` guard coincides with the
length test since the empty string always satisfies it. -/
def shortFileName (name : String) (maxLen0 : ℕ) : String :=
  let maxLen := if maxLen0 = 0 then 42 else maxLen0
  let cs := name.data
  if cs.length ≤ maxLen then name
  else
    let stemExt : List Char × List Char :=
      match lastDotIndex cs with
      | some d => if 0 < d ∧ cs.length - 6 < d then (cs.take d, cs.drop d) else (cs, [])
      | none => (cs, [])
    let stem := stemExt.1
    let ext := stemExt.2
    let keep := maxLen - ext.length - 1
    if keep < 8 then String.mk (stem.take (maxLen - 1) ++ ['…'])
    else String.mk (stem.take keep ++ '…' :: ext)

/-- The `uploadState` record — admin.js lines 476-487. -/
structure UploadState where
  active : Bool
  realLoaded : ℚ
  realTotal : ℚ
  realPercent : ℚ
  realSpeedStr : String
  displayedLoaded : ℚ
  displayedPercent : ℚ
  label : String
  total : ℚ
  indeterminate : Bool
deriving DecidableEq

/-- The initial value of the `uploadState` record (lines 476-487). -/
def uploadState0 : UploadState :=
  { active := false, realLoaded := 0, realTotal := 0, realPercent := 0,
    realSpeedStr := "—", displayedLoaded := 0, displayedPercent := 0,
    label := "", total := 0, indeterminate := false }

/-- The state reset at the start of `uploadProductFile` — lines 562-571.
JS `!fileSize` is truthiness on a number, i.e. `fileSize = 0`. -/
def uploadBegin (kind fileName : String) (fileSize : ℚ) (s : UploadState) : UploadState :=
  { s with
      active := true
      realLoaded := 0
      realTotal := fileSize
      realPercent := 0
      realSpeedStr := "—"
      displayedLoaded := 0
      displayedPercent := 0
      label := kind ++ ": " ++ shortFileName fileName 0
      total := fileSize
      indeterminate := decide (fileSize = 0) }

/-- The `xhr.upload` progress listener — admin.js lines 580-598.  The
closure variables `lastLoaded`/`lastTime` are passed and returned
explicitly: the result is `(new state, new lastLoaded, new lastTime)`.
Times are in milliseconds, as in the source (`Date.now()`). -/
def onUploadProgress (loaded total : ℚ) (lengthComputable : Bool)
    (now lastLoaded lastTime : ℚ) (s : UploadState) : UploadState × ℚ × ℚ :=
  let elapsed := (now - lastTime) / 1000
  let speed := if elapsed > 0.05 then (loaded - lastLoaded) / elapsed else 0
  let speedStr := if speed > 0 then formatBytes (round speed).toNat ++ "/с" else "—"
  let s' :=
    if lengthComputable = true ∧ 0 < total then
      { s with
          indeterminate := false
          realLoaded := loaded
          realTotal := total
          realPercent := min 99 ((round (loaded / total * 1000) : ℚ) / 10)
          realSpeedStr := speedStr }
    else
      { s with realLoaded := loaded, realSpeedStr := speedStr }
  (s', loaded, now)

/-- One transport progress event: the arguments the listener reads. -/
structure ProgressEv where
  loaded : ℚ
  total : ℚ
  lengthComputable : Bool
  now : ℚ

/-- Folding a list of progress events through the listener, threading the
state and the `lastLoaded`/`lastTime` closure variables. -/
def applyProgressList (evs : List ProgressEv) (acc : UploadState × ℚ × ℚ) :
    UploadState × ℚ × ℚ :=
  evs.foldl (fun a e => onUploadProgress e.loaded e.total e.lengthComputable e.now a.2.1 a.2.2 a.1) acc

/-- The state effect of `xhr.onload` — admin.js lines 600-609.  These
assignments run before the status check, so they are independent of the
status (kept as an argument to record that fact). -/
def xhrOnloadState (status : ℕ) (fileSize : ℚ) (s : UploadState) : UploadState :=
  { s with
      active := false
      realPercent := 100
      realLoaded := fileSize
      displayedPercent := 100
      displayedLoaded := fileSize }

/-- The state effect of `xhr.onerror` — admin.js lines 636-643: only
`active` is cleared; the failure message goes to `notify`, not into the
state. -/
def xhrOnerror (s : UploadState) : UploadState :=
  { s with active := false }

/-- One tick of `animateUploadProgress` — admin.js lines 517-545 (the
state mutations; the DOM writes are the presentation sink).  Inactive or
indeterminate states are returned unchanged (the early returns at lines
521-528). -/
def animateUploadProgress (s : UploadState) : UploadState :=
  if s.active = false then s
  else if s.indeterminate = true then s
  else
    let step : ℚ := 0.08
    let dl := s.displayedLoaded + (s.realLoaded - s.displayedLoaded) * step
    let dp := s.displayedPercent + (s.realPercent - s.displayedPercent) * step
    let dp2 := if dp > 99.5 then s.realPercent else dp
    let dl2 := if dl > s.realTotal - 100 then s.realLoaded else dl
    { s with displayedLoaded := dl2, displayedPercent := dp2 }

/-- The percent actually written to the bar by the smoother tick —
line 534: `Math.min(99.9, Math.round(s.displayedPercent * 10) / 10)`. -/
def pctShow (s : UploadState) : ℚ :=
  min 99.9 ((round (s.displayedPercent * 10) : ℚ) / 10)

/-- Trajectory of smoother ticks: before each tick the transport writes
a new raw percent (the only raw field a progress event feeds into the
percent filter), then `animateUploadProgress` runs.  Returns the list of
successive states. -/
def smootherTraj (s : UploadState) : List ℚ → List UploadState
  | [] => []
  | r :: rs =>
    let s' := animateUploadProgress { s with realPercent := r }
    s' :: smootherTraj s' rs

/-- Outcome of one `XMLHttpRequest`: network error (`onerror`) or a
completed response (`onload`) with a status and whether
`JSON.parse(xhr.responseText)` succeeds. -/
inductive XhrOutcome where
  | netError : XhrOutcome
  | loaded (status : ℕ) (bodyParses : Bool) : XhrOutcome
deriving DecidableEq

/-- Observable orchestration events of one save job: a transport dispatch
(`xhr.send` for the image or the video), an `onError` invocation
(`setBusy(false)` in `saveProduct`), or the `done` success callback. -/
inductive UploadEv where
  | dispatch (isVideo : Bool)
  | onErrorCall
  | onSuccessCall
deriving DecidableEq

/-- Callback trace of one `uploadProductFile` call — admin.js lines
600-643: on a 2xx status with a parsing body, `cb` runs (the
continuation trace); on a 2xx status with an unparseable body the catch
block runs `onError()` and then `cb()`; on a non-2xx status or a network
error only `onError()` runs. -/
def uploadProductFileTrace (isVideo : Bool) (o : XhrOutcome) (contOnCb : List UploadEv) :
    List UploadEv :=
  UploadEv.dispatch isVideo ::
    match o with
    | .netError => [UploadEv.onErrorCall]
    | .loaded status bodyParses =>
      if 200 ≤ status ∧ status < 300 then
        if bodyParses then contOnCb else UploadEv.onErrorCall :: contOnCb
      else [UploadEv.onErrorCall]

/-- Callback trace of the upload chain in `saveProduct` — admin.js lines
686-706: image first (if any), then video (if any), then `done`. -/
def saveProductTrace (hasImage hasVideo : Bool) (o1 o2 : XhrOutcome) : List UploadEv :=
  if hasImage then
    uploadProductFileTrace false o1
      (if hasVideo then uploadProductFileTrace true o2 [UploadEv.onSuccessCall]
       else [UploadEv.onSuccessCall])
  else if hasVideo then uploadProductFileTrace true o2 [UploadEv.onSuccessCall]
  else [UploadEv.onSuccessCall]

/-- The transport dispatches of a trace, in order (`false` = image,
`true` = video). -/
def dispatchList (tr : List UploadEv) : List Bool :=
  tr.filterMap fun e => match e with | .dispatch b => some b | _ => none

/-- An outcome with a success-range status whose body fails to parse:
the one case in which `uploadProductFile` invokes both `onError` and the
continuation. -/
def malformedSuccess : XhrOutcome → Bool
  | .netError => false
  | .loaded status bodyParses => decide (200 ≤ status ∧ status < 300) && !bodyParses

/-- An outcome whose status is in the success range (the condition under
which `uploadProductFile` runs its continuation). -/
def okStatus : XhrOutcome → Bool
  | .netError => false
  | .loaded status _ => decide (200 ≤ status ∧ status < 300)

/-! ### Helper lemmas -/

lemma log1024_1536 : Nat.log 1024 1536 = 1 :=
  Nat.log_eq_of_pow_le_of_lt_pow (by norm_num) (by norm_num)

lemma log1024_megabyte : Nat.log 1024 1048576 = 2 :=
  Nat.log_eq_of_pow_le_of_lt_pow (by norm_num) (by norm_num)

lemma log1024_gigabyte : Nat.log 1024 1073741824 = 3 :=
  Nat.log_eq_of_pow_le_of_lt_pow (by norm_num) (by norm_num)

lemma log1024_of_lt (n : ℕ) (h : 0 < n) (hlt : n < 1024) : Nat.log 1024 n = 0 :=
  Nat.log_eq_of_pow_le_of_lt_pow (by omega) (by omega)

/-- Unfolding of `formatBytes` on a nonzero argument: some number string
followed by the unit chosen at index `Nat.log 1024 bytes`. -/
lemma formatBytes_eq (bytes : ℕ) (h : bytes ≠ 0) :
    formatBytes bytes =
      (if Nat.log 1024 bytes = 0 then toString bytes
       else
         if round ((bytes : ℚ) / (1024 : ℚ) ^ Nat.log 1024 bytes * 10) % 10 = 0
         then toString (round ((bytes : ℚ) / (1024 : ℚ) ^ Nat.log 1024 bytes * 10) / 10)
         else toString (round ((bytes : ℚ) / (1024 : ℚ) ^ Nat.log 1024 bytes * 10) / 10) ++ "." ++
           toString (round ((bytes : ℚ) / (1024 : ℚ) ^ Nat.log 1024 bytes * 10) % 10))
      ++ " " ++ ((["Б", "КБ", "МБ", "ГБ"][Nat.log 1024 bytes]?).getD "undefined") := by
  rw [formatBytes]
  simp only [h, if_false]
  norm_cast

/-! ### C8 — `formatBytes` unit selection and decimal formatting -/

/-- C8. `formatBytes` picks the unit of index `⌊log₁₀₂₄ n⌋` — the largest
unit of the bytes/KB/MB/GB table whose scaled value is at least 1 (for
every positive `n` below the table's range, `1024 ^ i ≤ n < 1024 ^ (i+1)`
and `i ≤ 3`); the bytes tier has zero decimals, larger tiers one decimal
with a trailing `.0` trimmed; `formatBytes 0` is the zero-unit literal,
`formatBytes 1536` the KB-tier string `"1.5 КБ"`, and
`formatBytes (1024*1024)` the MB-tier string with the zero fractional
remainder trimmed. -/
theorem formatBytes_tiers :
    formatBytes 0 = "0 Б"
  ∧ formatBytes 1536 = "1.5 КБ"
  ∧ formatBytes (1024 * 1024) = "1 МБ"
  ∧ formatBytes 1 = "1 Б"
  ∧ formatBytes 1023 = "1023 Б"
  ∧ formatBytes (1024 ^ 3) = "1 ГБ"
  ∧ ∀ n : ℕ, 0 < n → n < 1024 ^ 4 →
      1024 ^ Nat.log 1024 n ≤ n
    ∧ n < 1024 ^ (Nat.log 1024 n + 1)
    ∧ Nat.log 1024 n < 4
    ∧ ∃ num : String,
        formatBytes n = num ++ " " ++ ((["Б", "КБ", "МБ", "ГБ"][Nat.log 1024 n]?).getD "undefined") := by
  refine ⟨rfl, ?_, ?_, ?_, ?_, ?_, ?_⟩
  · simp only [formatBytes, log1024_1536]
    norm_num [round_eq]
    rfl
  · have h : (1024 * 1024 : ℕ) = 1048576 := by norm_num
    rw [h]
    simp only [formatBytes, log1024_megabyte]
    norm_num [round_eq]
    rfl
  · simp only [formatBytes, log1024_of_lt 1 (by norm_num) (by norm_num)]
    norm_num
    rfl
  · simp only [formatBytes, log1024_of_lt 1023 (by norm_num) (by norm_num)]
    norm_num
    rfl
  · have h : (1024 ^ 3 : ℕ) = 1073741824 := by norm_num
    rw [h]
    simp only [formatBytes, log1024_gigabyte]
    norm_num [round_eq]
    rfl
  · intro n hn hlt
    exact ⟨Nat.pow_log_le_self 1024 hn.ne', Nat.lt_pow_succ_log_self (by norm_num) n,
      Nat.log_lt_of_lt_pow hn.ne' hlt, _, formatBytes_eq n hn.ne'⟩

/-- Witness for C8: the general tier clause at `n = 1536`. -/
theorem formatBytes_tiers_witness :
    1024 ^ Nat.log 1024 1536 ≤ 1536
  ∧ 1536 < 1024 ^ (Nat.log 1024 1536 + 1)
  ∧ Nat.log 1024 1536 < 4
  ∧ ∃ num : String,
      formatBytes 1536 = num ++ " " ++ ((["Б", "КБ", "МБ", "ГБ"][Nat.log 1024 1536]?).getD "undefined") :=
  formatBytes_tiers.2.2.2.2.2.2 1536 (by norm_num) (by norm_num)

/-! ### C10 — `formatBytes` beyond the unit table -/

/-- C10. For every `n ≥ 1024⁴` the unit index `⌊log₁₀₂₄ n⌋` is at least 4,
the lookup in the four-element unit table is out of bounds (`none`), and
the produced string is malformed: a number followed by `" undefined"`
instead of a unit. -/
theorem formatBytes_overflow (n : ℕ) (h : 1024 ^ 4 ≤ n) :
    4 ≤ Nat.log 1024 n
  ∧ (["Б", "КБ", "МБ", "ГБ"][Nat.log 1024 n]?) = none
  ∧ ∃ num : String, formatBytes n = num ++ " " ++ "undefined" := by
  have hn : n ≠ 0 := by
    intro hz
    rw [hz] at h
    norm_num at h
  have hlog : 4 ≤ Nat.log 1024 n := (Nat.pow_le_iff_le_log (by norm_num) hn).1 h
  have hnone : (["Б", "КБ", "МБ", "ГБ"][Nat.log 1024 n]?) = none := by
    apply List.getElem?_eq_none
    simpa using hlog
  have heq := formatBytes_eq n hn
  rw [hnone, Option.getD_none] at heq
  exact ⟨hlog, hnone, _, heq⟩

/-- Witness for C10 at `n = 1024⁴`. -/
theorem formatBytes_overflow_witness :
    4 ≤ Nat.log 1024 (1024 ^ 4)
  ∧ (["Б", "КБ", "МБ", "ГБ"][Nat.log 1024 (1024 ^ 4)]?) = none
  ∧ ∃ num : String, formatBytes (1024 ^ 4) = num ++ " " ++ "undefined" :=
  formatBytes_overflow (1024 ^ 4) (le_refl _)

/-! ### C9 — `shortFileName` truncation -/

/-- The 64-character name of the spec's scenario: sixty `'a'`s followed
by `".png"`. -/
def longName : String := String.mk (List.replicate 60 'a' ++ ".png".data)

/-- C9. With the default limit 42, `shortFileName` returns any name
within the limit unchanged; on the 64-character scenario name it keeps
the `".png"` extension, inserts exactly one ellipsis, and produces a
string of length 42 (thirty-seven `'a'`s, the ellipsis, the
extension). -/
theorem shortFileName_spec :
    (∀ name : String, name.data.length ≤ 42 → shortFileName name 42 = name)
  ∧ shortFileName longName 42 = String.mk (List.replicate 37 'a' ++ '…' :: ".png".data)
  ∧ (shortFileName longName 42).data.length ≤ 42
  ∧ (shortFileName longName 42).data.count '…' = 1
  ∧ ∃ pre : String, shortFileName longName 42 = pre ++ ".png" := by
  refine ⟨?_, by decide, by decide, by decide,
    ⟨String.mk (List.replicate 37 'a' ++ ['…']), by decide⟩⟩
  intro name h
  simp [shortFileName]
  intro hlt
  exact absurd hlt (not_lt.2 (by simpa using h))

/-- Witness for C9: a short name is returned unchanged. -/
theorem shortFileName_spec_witness : shortFileName "abc.png" 42 = "abc.png" :=
  shortFileName_spec.1 "abc.png" (by decide)

/-! ### C3 — raw percent formula -/

/-- One progress event keeps `realPercent` at most 99. -/
lemma onUploadProgress_realPercent_le (loaded total : ℚ) (lc : Bool)
    (now lastL lastT : ℚ) (s : UploadState) (h : s.realPercent ≤ 99) :
    (onUploadProgress loaded total lc now lastL lastT s).1.realPercent ≤ 99 := by
  simp only [onUploadProgress]
  split
  · exact min_le_left _ _
  · exact h

/-- Any sequence of progress events keeps `realPercent` at most 99. -/
lemma applyProgressList_realPercent_le (evs : List ProgressEv) :
    ∀ (st : UploadState) (l0 t0 : ℚ), st.realPercent ≤ 99 →
      (applyProgressList evs (st, l0, t0)).1.realPercent ≤ 99 := by
  induction evs with
  | nil => intro st l0 t0 h; exact h
  | cons e rest ih =>
      intro st l0 t0 h
      exact ih _ _ _ (onUploadProgress_realPercent_le e.loaded e.total e.lengthComputable e.now l0 t0 st h)

/-- C3. A progress event with a computable positive total sets
`realPercent = min 99 (round(loaded/total*1000)/10)` (so never more
than 99 — 100 is only ever written by the completion handler); at
`loaded = 1000000, total = 2000000` the value is 50; every sequence of
progress events preserves `realPercent ≤ 99`; the `onload` handler
(markComplete) sets it to 100. -/
theorem rawPercent_formula (loaded total now lastL lastT : ℚ) (s : UploadState)
    (ht : 0 < total) (h0 : 0 ≤ loaded) (hle : loaded ≤ total) :
    (onUploadProgress loaded total true now lastL lastT s).1.realPercent
      = min 99 ((round (loaded / total * 1000) : ℚ) / 10)
  ∧ (onUploadProgress loaded total true now lastL lastT s).1.realPercent ≤ 99
  ∧ (onUploadProgress 1000000 2000000 true now lastL lastT s).1.realPercent = 50
  ∧ (∀ (evs : List ProgressEv) (st : UploadState) (l0 t0 : ℚ), st.realPercent ≤ 99 →
      (applyProgressList evs (st, l0, t0)).1.realPercent ≤ 99)
  ∧ ∀ (status : ℕ) (fs : ℚ) (st : UploadState), (xhrOnloadState status fs st).realPercent = 100 := by
  have h1 : (onUploadProgress loaded total true now lastL lastT s).1.realPercent
      = min 99 ((round (loaded / total * 1000) : ℚ) / 10) := by
    simp [onUploadProgress, ht]
  refine ⟨h1, by rw [h1]; exact min_le_left _ _, ?_,
    fun evs st l0 t0 h => applyProgressList_realPercent_le evs st l0 t0 h,
    fun _ _ _ => rfl⟩
  simp [onUploadProgress]
  norm_num [round_eq, min_def]

/-- Witness for C3 at `loaded = 1, total = 2`. -/
theorem rawPercent_formula_witness :
    (onUploadProgress 1 2 true 0 0 0 uploadState0).1.realPercent
      = min 99 ((round ((1 : ℚ) / 2 * 1000) : ℚ) / 10)
  ∧ (onUploadProgress 1 2 true 0 0 0 uploadState0).1.realPercent ≤ 99
  ∧ (onUploadProgress 1000000 2000000 true 0 0 0 uploadState0).1.realPercent = 50
  ∧ (∀ (evs : List ProgressEv) (st : UploadState) (l0 t0 : ℚ), st.realPercent ≤ 99 →
      (applyProgressList evs (st, l0, t0)).1.realPercent ≤ 99)
  ∧ ∀ (status : ℕ) (fs : ℚ) (st : UploadState), (xhrOnloadState status fs st).realPercent = 100 :=
  rawPercent_formula 1 2 0 0 0 uploadState0 (by norm_num) (by norm_num) (by norm_num)

/-! ### C4 — speed sampling threshold -/

/-- C4 counterexample. A progress event arriving 10 ms (≤ 0.05 s) after
the previous one does not retain the previous speed estimate
(`"1 КБ/с"`): the handler computes `speed = 0` and overwrites the
estimate with the unavailable placeholder `"—"`. -/
theorem speed_reset_counterexample :
    ((10 : ℚ) - 0) / 1000 ≤ 0.05
  ∧ (onUploadProgress 500 1000 true 10 0 0
      { uploadState0 with realSpeedStr := "1 КБ/с" }).1.realSpeedStr = "—"
  ∧ (onUploadProgress 500 1000 true 10 0 0
      { uploadState0 with realSpeedStr := "1 КБ/с" }).1.realSpeedStr
      ≠ ({ uploadState0 with realSpeedStr := "1 КБ/с" } : UploadState).realSpeedStr := by
  have hcond : ¬((0.05 : ℚ) < 10 / 1000) := by norm_num
  refine ⟨by norm_num, ?_, ?_⟩ <;>
    simp [onUploadProgress, hcond]

/-- C4 (amended). The speed estimate is
`(bytesLoaded - previousBytesLoaded) / elapsedSeconds` only when
`elapsedSeconds` strictly exceeds 0.05 s (and is positive); when a
progress event arrives sooner, the speed is treated as 0 and the speed
display is reset to the unavailable placeholder `"—"` rather than
retaining the previous estimate. -/
theorem speed_sampling_amended (loaded total : ℚ) (lc : Bool)
    (now lastLoaded lastTime : ℚ) (s : UploadState) :
    ((now - lastTime) / 1000 ≤ 0.05 →
      (onUploadProgress loaded total lc now lastLoaded lastTime s).1.realSpeedStr = "—")
  ∧ (0.05 < (now - lastTime) / 1000 →
      0 < (loaded - lastLoaded) / ((now - lastTime) / 1000) →
      (onUploadProgress loaded total lc now lastLoaded lastTime s).1.realSpeedStr
        = formatBytes (round ((loaded - lastLoaded) / ((now - lastTime) / 1000))).toNat ++ "/с") := by
  constructor
  · intro hle
    simp only [onUploadProgress, if_neg (not_lt.2 hle)]
    norm_num
    split <;> rfl
  · intro hgt hpos
    simp only [onUploadProgress, if_pos hgt, if_pos hpos]
    split <;> rfl

/-- Witness for C4: a 1-second gap with 1000 transferred bytes formats a
speed string. -/
theorem speed_sampling_amended_witness :
    (0.05 : ℚ) < ((1000 : ℚ) - 0) / 1000
  ∧ (onUploadProgress 2000 5000 true 1000 1000 0 uploadState0).1.realSpeedStr
      = formatBytes (round (((2000 : ℚ) - 1000) / (((1000 : ℚ) - 0) / 1000))).toNat ++ "/с" :=
  ⟨by norm_num,
    (speed_sampling_amended 2000 5000 true 1000 1000 0 uploadState0).2
      (by norm_num) (by norm_num)⟩

/-! ### C5 — failure handlers and the transfer state -/

/-- C5 counterexample. A completed response with failure status 500
does mutate the percent fields: the `onload` handler runs its
100%-presentation assignments before the status check, so a prior
`realPercent = 50` becomes 100. -/
theorem failed_status_mutates_percent :
    ¬(200 ≤ 500 ∧ 500 < 300)
  ∧ (xhrOnloadState 500 1000
      { uploadState0 with active := true, realPercent := 50, displayedPercent := 40 }).realPercent = 100
  ∧ (xhrOnloadState 500 1000
      { uploadState0 with active := true, realPercent := 50, displayedPercent := 40 }).realPercent
      ≠ ({ uploadState0 with active := true, realPercent := 50, displayedPercent := 40 } : UploadState).realPercent
  ∧ (xhrOnloadState 500 1000
      { uploadState0 with active := true, realPercent := 50, displayedPercent := 40 }).displayedPercent
      ≠ ({ uploadState0 with active := true, realPercent := 50, displayedPercent := 40 } : UploadState).displayedPercent := by
  refine ⟨by norm_num, rfl, by norm_num [xhrOnloadState], by norm_num [xhrOnloadState]⟩

/-- C5 (amended). On a transport error (`onerror`) `active` is cleared
and nothing else changes — in particular no percent field; on a
completed response the `onload` handler clears `active` but also forces
`realPercent`/`displayedPercent` to 100 and the loaded counters to the
file size (its 100%-presentation block runs before the status check,
hence also on a non-success status); neither handler stores the failure
reason in the state — the label and speed-string fields are untouched,
and the message goes to the notifier. -/
theorem failure_handlers_frame (s : UploadState) (status : ℕ) (fs : ℚ) :
    (xhrOnerror s).active = false
  ∧ (xhrOnerror s).realPercent = s.realPercent
  ∧ (xhrOnerror s).displayedPercent = s.displayedPercent
  ∧ (xhrOnerror s).realLoaded = s.realLoaded
  ∧ (xhrOnerror s).displayedLoaded = s.displayedLoaded
  ∧ (xhrOnerror s).realTotal = s.realTotal
  ∧ (xhrOnerror s).realSpeedStr = s.realSpeedStr
  ∧ (xhrOnerror s).label = s.label
  ∧ (xhrOnloadState status fs s).active = false
  ∧ (xhrOnloadState status fs s).realPercent = 100
  ∧ (xhrOnloadState status fs s).displayedPercent = 100
  ∧ (xhrOnloadState status fs s).realLoaded = fs
  ∧ (xhrOnloadState status fs s).displayedLoaded = fs
  ∧ (xhrOnloadState status fs s).realSpeedStr = s.realSpeedStr
  ∧ (xhrOnloadState status fs s).label = s.label := by
  repeat' constructor

/-! ### Smoother-step helper lemmas -/

/-- A smoother tick never writes the active, indeterminate or raw
fields. -/
lemma animate_preserve (s : UploadState) :
    (animateUploadProgress s).active = s.active
  ∧ (animateUploadProgress s).indeterminate = s.indeterminate
  ∧ (animateUploadProgress s).realPercent = s.realPercent
  ∧ (animateUploadProgress s).realLoaded = s.realLoaded
  ∧ (animateUploadProgress s).realTotal = s.realTotal := by
  unfold animateUploadProgress
  split
  · exact ⟨rfl, rfl, rfl, rfl, rfl⟩
  · split
    · exact ⟨rfl, rfl, rfl, rfl, rfl⟩
    · exact ⟨rfl, rfl, rfl, rfl, rfl⟩

/-- The displayed percent written by an active, determinate smoother
tick: the 0.08 filter, snapped to the raw percent when the post-filter
value exceeds 99.5. -/
lemma animate_dp (s : UploadState) (ha : s.active = true) (hi : s.indeterminate = false) :
    (animateUploadProgress s).displayedPercent
      = (if s.displayedPercent + (s.realPercent - s.displayedPercent) * 0.08 > 99.5
         then s.realPercent
         else s.displayedPercent + (s.realPercent - s.displayedPercent) * 0.08) := by
  simp [animateUploadProgress, ha, hi]

/-- The displayed loaded-bytes value written by an active, determinate
smoother tick. -/
lemma animate_dl (s : UploadState) (ha : s.active = true) (hi : s.indeterminate = false) :
    (animateUploadProgress s).displayedLoaded
      = (if s.displayedLoaded + (s.realLoaded - s.displayedLoaded) * 0.08 > s.realTotal - 100
         then s.realLoaded
         else s.displayedLoaded + (s.realLoaded - s.displayedLoaded) * 0.08) := by
  simp [animateUploadProgress, ha, hi]

/-- The percent filter moves the displayed value toward the raw value
without overshooting it. -/
lemma smoothStep_bounds (d r : ℚ) (h0 : 0 ≤ d) (hdr : d ≤ r) :
    d ≤ (if d + (r - d) * 0.08 > 99.5 then r else d + (r - d) * 0.08)
  ∧ (if d + (r - d) * 0.08 > 99.5 then r else d + (r - d) * 0.08) ≤ r := by
  constructor <;> split
  · exact hdr
  · nlinarith [sub_nonneg.2 hdr]
  · exact le_refl r
  · nlinarith [sub_nonneg.2 hdr]

/-- Induction core for C7: along a monotone in-range raw sequence the
displayed percent stays in `[0, 100]`, is non-decreasing, and never
exceeds the raw value it is converging to. -/
lemma smootherTraj_props (rs : List ℚ) :
    ∀ (s : UploadState), s.active = true → s.indeterminate = false →
      0 ≤ s.displayedPercent → s.displayedPercent ≤ 100 →
      (∀ r ∈ rs, 0 ≤ r ∧ r ≤ 100) →
      rs.Chain' (· ≤ ·) →
      (∀ r ∈ rs.head?, s.displayedPercent ≤ r) →
      (∀ t ∈ smootherTraj s rs, 0 ≤ t.displayedPercent ∧ t.displayedPercent ≤ 100)
    ∧ List.Chain' (· ≤ ·)
        (s.displayedPercent :: (smootherTraj s rs).map (fun t => t.displayedPercent))
    ∧ (∀ p ∈ (smootherTraj s rs).zip rs, p.1.displayedPercent ≤ p.2) := by
  induction rs with
  | nil =>
      intro s _ _ _ _ _ _ _
      refine ⟨?_, ?_, ?_⟩ <;> simp [smootherTraj]
  | cons r rest ih =>
      intro s ha hi h0 h100 hmem hchain hhead
      have hdr : s.displayedPercent ≤ r := hhead r (by simp)
      have hr : 0 ≤ r ∧ r ≤ 100 := hmem r (by simp)
      have ha1 : ({ s with realPercent := r } : UploadState).active = true := ha
      have hi1 : ({ s with realPercent := r } : UploadState).indeterminate = false := hi
      have hdp := animate_dp { s with realPercent := r } ha1 hi1
      have hb := smoothStep_bounds s.displayedPercent r h0 hdr
      have hup : s.displayedPercent
          ≤ (animateUploadProgress { s with realPercent := r }).displayedPercent := by
        rw [hdp]; exact hb.1
      have hler : (animateUploadProgress { s with realPercent := r }).displayedPercent ≤ r := by
        rw [hdp]; exact hb.2
      have hpres := animate_preserve { s with realPercent := r }
      obtain ⟨hhd, htl⟩ := List.chain'_cons'.mp hchain
      have ihs := ih (animateUploadProgress { s with realPercent := r })
        (hpres.1.trans rfl |>.trans ha1)
        (hpres.2.1.trans hi1)
        (le_trans h0 hup)
        (le_trans hler hr.2)
        (fun x hx => hmem x (List.mem_cons_of_mem r hx))
        htl
        (fun x hx => le_trans hler (hhd x hx))
      simp only [smootherTraj]
      refine ⟨?_, ?_, ?_⟩
      · intro t ht
        rcases List.mem_cons.mp ht with h | h
        · subst h; exact ⟨le_trans h0 hup, le_trans hler hr.2⟩
        · exact ihs.1 t h
      · rw [List.map_cons, List.chain'_cons]
        exact ⟨hup, ihs.2.1⟩
      · intro p hp
        rcases List.mem_cons.mp (by simpa [List.zip_cons_cons] using hp) with h | h
        · subst h; exact hler
        · exact ihs.2.2 p h

/-! ### C7 — displayed percent bounds and monotonicity -/

/-- C7. Within one transfer (started with `displayedPercent = 0`, active,
determinate), along any monotonically increasing raw-percent sequence
with values in `[0, 100]`: every smoother state keeps `displayedPercent`
in `[0, 100]`, the successive displayed percents are non-decreasing, and
each displayed percent is at most the raw value it is chasing. -/
theorem displayedPercent_bounds_monotone (s : UploadState) (rs : List ℚ)
    (ha : s.active = true) (hi : s.indeterminate = false)
    (hd : s.displayedPercent = 0)
    (hmem : ∀ r ∈ rs, 0 ≤ r ∧ r ≤ 100) (hchain : rs.Chain' (· ≤ ·)) :
    (∀ t ∈ smootherTraj s rs, 0 ≤ t.displayedPercent ∧ t.displayedPercent ≤ 100)
  ∧ List.Chain' (· ≤ ·)
      (s.displayedPercent :: (smootherTraj s rs).map (fun t => t.displayedPercent))
  ∧ (∀ p ∈ (smootherTraj s rs).zip rs, p.1.displayedPercent ≤ p.2) :=
  smootherTraj_props rs s ha hi (by rw [hd]) (by rw [hd]; norm_num)
    hmem hchain (fun r hr => by rw [hd]; exact (hmem r (by cases rs with
      | nil => simp at hr
      | cons a l => simp at hr; simp [hr])).1)

/-- Witness for C7: the raw sequence `[50, 60]` from a fresh transfer
state. -/
theorem displayedPercent_bounds_monotone_witness :
    (∀ t ∈ smootherTraj { uploadState0 with active := true } [50, 60],
      0 ≤ t.displayedPercent ∧ t.displayedPercent ≤ 100)
  ∧ List.Chain' (· ≤ ·)
      (({ uploadState0 with active := true } : UploadState).displayedPercent ::
        (smootherTraj { uploadState0 with active := true } [50, 60]).map
          (fun t => t.displayedPercent))
  ∧ (∀ p ∈ (smootherTraj { uploadState0 with active := true } [50, 60]).zip [50, 60],
      p.1.displayedPercent ≤ p.2) :=
  displayedPercent_bounds_monotone { uploadState0 with active := true } [50, 60]
    rfl rfl rfl
    (by intro r hr; simp at hr; rcases hr with h | h <;> subst h <;> norm_num)
    (by refine List.chain'_cons.mpr ⟨by norm_num, ?_⟩; simp)

/-! ### C6 — smoother filter, snap condition and display cap -/

/-- C6 counterexample. With `rawPercent = 100 ≥ 99.5` and
`displayedPercent = 0`, a smoother step does not snap the displayed
value to the raw value: the filter yields 8, not 100 — the snap
condition of the code tests the post-filter displayed percent, not the
raw percent. -/
theorem smoother_ignores_high_raw :
    (99.5 : ℚ) ≤ ({ uploadState0 with active := true, realPercent := 100 } : UploadState).realPercent
  ∧ (animateUploadProgress
      { uploadState0 with active := true, realPercent := 100 }).displayedPercent = 8
  ∧ (animateUploadProgress
      { uploadState0 with active := true, realPercent := 100 }).displayedPercent
      ≠ ({ uploadState0 with active := true, realPercent := 100 } : UploadState).realPercent := by
  refine ⟨by norm_num [uploadState0], ?_, ?_⟩
  · rw [animate_dp _ rfl rfl]
    norm_num [uploadState0]
  · rw [animate_dp _ rfl rfl]
    norm_num [uploadState0]

/-- C6 (amended). Each active, determinate smoother step applies the
0.08 exponential filter to both displayed fields; the internal displayed
percent snaps to the raw percent when the post-filter displayed percent
exceeds 99.5 (a condition on the displayed value, not on the raw value);
and the percent actually shown is `min 99.9 (round(displayedPercent*10)/10)`
— capped at 99.9 unconditionally, the 100% presentation being set
directly by the completion handler. -/
theorem smoother_step_amended (s : UploadState)
    (ha : s.active = true) (hi : s.indeterminate = false) :
    (animateUploadProgress s).displayedPercent
      = (if s.displayedPercent + (s.realPercent - s.displayedPercent) * 0.08 > 99.5
         then s.realPercent
         else s.displayedPercent + (s.realPercent - s.displayedPercent) * 0.08)
  ∧ (animateUploadProgress s).displayedLoaded
      = (if s.displayedLoaded + (s.realLoaded - s.displayedLoaded) * 0.08 > s.realTotal - 100
         then s.realLoaded
         else s.displayedLoaded + (s.realLoaded - s.displayedLoaded) * 0.08)
  ∧ pctShow (animateUploadProgress s) ≤ 99.9 :=
  ⟨animate_dp s ha hi, animate_dl s ha hi, min_le_left _ _⟩

/-- Witness for C6 at a fresh transfer state with `rawPercent = 50`. -/
theorem smoother_step_amended_witness :
    (animateUploadProgress { uploadState0 with active := true, realPercent := 50 }).displayedPercent = 4
  ∧ pctShow (animateUploadProgress { uploadState0 with active := true, realPercent := 50 }) ≤ 99.9 := by
  have h := smoother_step_amended { uploadState0 with active := true, realPercent := 50 } rfl rfl
  refine ⟨?_, h.2.2⟩
  rw [h.1]
  norm_num [uploadState0]

/-! ### Orchestration trace helper lemmas -/

lemma uploadTrace_count_succ (iv : Bool) (o : XhrOutcome) (cont : List UploadEv)
    (h : malformedSuccess o = false) :
    (uploadProductFileTrace iv o cont).count UploadEv.onSuccessCall
      = if okStatus o = true then cont.count UploadEv.onSuccessCall else 0 := by
  rcases o with _ | ⟨st, p⟩
  · simp [uploadProductFileTrace, okStatus, List.count_cons]
  · by_cases hst : 200 ≤ st ∧ st < 300
    · have hp : p = true := by
        simpa [malformedSuccess, hst] using h
      subst hp
      simp [uploadProductFileTrace, okStatus, hst, List.count_cons]
    · simp [uploadProductFileTrace, okStatus, hst, List.count_cons]

lemma uploadTrace_count_err (iv : Bool) (o : XhrOutcome) (cont : List UploadEv)
    (h : malformedSuccess o = false) :
    (uploadProductFileTrace iv o cont).count UploadEv.onErrorCall
      = if okStatus o = true then cont.count UploadEv.onErrorCall else 1 := by
  rcases o with _ | ⟨st, p⟩
  · simp [uploadProductFileTrace, okStatus, List.count_cons]
  · by_cases hst : 200 ≤ st ∧ st < 300
    · have hp : p = true := by
        simpa [malformedSuccess, hst] using h
      subst hp
      simp [uploadProductFileTrace, okStatus, hst, List.count_cons]
    · simp [uploadProductFileTrace, okStatus, hst, List.count_cons]

lemma dispatchList_uploadTrace (iv : Bool) (o : XhrOutcome) (cont : List UploadEv) :
    dispatchList (uploadProductFileTrace iv o cont)
      = iv :: (if okStatus o = true then dispatchList cont else []) := by
  rcases o with _ | ⟨st, p⟩
  · simp [uploadProductFileTrace, okStatus, dispatchList]
  · by_cases hst : 200 ≤ st ∧ st < 300
    · cases p <;> simp [uploadProductFileTrace, okStatus, dispatchList, hst]
    · simp [uploadProductFileTrace, okStatus, dispatchList, hst]

lemma mem_dispatch_uploadTrace (iv b : Bool) (o : XhrOutcome) (cont : List UploadEv) :
    UploadEv.dispatch b ∈ uploadProductFileTrace iv o cont
      ↔ (b = iv ∨ (okStatus o = true ∧ UploadEv.dispatch b ∈ cont)) := by
  rcases o with _ | ⟨st, p⟩
  · simp [uploadProductFileTrace, okStatus]
  · by_cases hst : 200 ≤ st ∧ st < 300
    · cases p <;> simp [uploadProductFileTrace, okStatus, hst]
    · simp [uploadProductFileTrace, okStatus, hst]

/-! ### C1 — terminal callbacks fire exactly once, exclusively -/

/-- C1 counterexample. A job with only a primary file whose response has
success status 200 but an unparseable body fires both terminal
callbacks: `onError` (from the catch block) and then the continuation,
so the success path also completes — `onSuccess` and `onError` are not
mutually exclusive. -/
theorem both_callbacks_fire_on_malformed_success :
    saveProductTrace true false (.loaded 200 false) .netError
      = [.dispatch false, .onErrorCall, .onSuccessCall]
  ∧ (saveProductTrace true false (.loaded 200 false) .netError).count UploadEv.onSuccessCall = 1
  ∧ (saveProductTrace true false (.loaded 200 false) .netError).count UploadEv.onErrorCall = 1 := by
  decide

/-- C1 (amended). Provided no transfer of the job completes with a
success-range status whose body fails to parse, the terminal callbacks
are mutually exclusive and the one that fires does so exactly once:
either `onSuccess` fires once and `onError` never, or the other way
round.  (In the malformed-success case `onError` fires and the chain
still continues, so both callbacks can fire for one job.) -/
theorem terminal_callback_exclusive (hasImage hasVideo : Bool) (o1 o2 : XhrOutcome)
    (h1 : malformedSuccess o1 = false) (h2 : malformedSuccess o2 = false) :
    ((saveProductTrace hasImage hasVideo o1 o2).count UploadEv.onSuccessCall = 1
      ∧ (saveProductTrace hasImage hasVideo o1 o2).count UploadEv.onErrorCall = 0)
  ∨ ((saveProductTrace hasImage hasVideo o1 o2).count UploadEv.onSuccessCall = 0
      ∧ (saveProductTrace hasImage hasVideo o1 o2).count UploadEv.onErrorCall = 1) := by
  cases hasImage <;> cases hasVideo
  · left
    rw [show saveProductTrace false false o1 o2 = [UploadEv.onSuccessCall] from rfl]
    exact ⟨by decide, by decide⟩
  · rw [show saveProductTrace false true o1 o2
        = uploadProductFileTrace true o2 [UploadEv.onSuccessCall] from rfl,
      uploadTrace_count_succ true o2 _ h2, uploadTrace_count_err true o2 _ h2]
    by_cases ho : okStatus o2 = true <;> simp [ho, List.count_cons]
  · rw [show saveProductTrace true false o1 o2
        = uploadProductFileTrace false o1 [UploadEv.onSuccessCall] from rfl,
      uploadTrace_count_succ false o1 _ h1, uploadTrace_count_err false o1 _ h1]
    by_cases ho : okStatus o1 = true <;> simp [ho, List.count_cons]
  · rw [show saveProductTrace true true o1 o2
        = uploadProductFileTrace false o1
            (uploadProductFileTrace true o2 [UploadEv.onSuccessCall]) from rfl,
      uploadTrace_count_succ false o1 _ h1, uploadTrace_count_err false o1 _ h1,
      uploadTrace_count_succ true o2 _ h2, uploadTrace_count_err true o2 _ h2]
    by_cases ho1 : okStatus o1 = true <;> by_cases ho2 : okStatus o2 = true <;>
      simp [ho1, ho2, List.count_cons]

/-- Witness for C1: image succeeds, video fails with status 500 — only
`onError` fires, once. -/
theorem terminal_callback_exclusive_witness :
    ((saveProductTrace true true (.loaded 200 true) (.loaded 500 true)).count UploadEv.onSuccessCall = 1
      ∧ (saveProductTrace true true (.loaded 200 true) (.loaded 500 true)).count UploadEv.onErrorCall = 0)
  ∨ ((saveProductTrace true true (.loaded 200 true) (.loaded 500 true)).count UploadEv.onSuccessCall = 0
      ∧ (saveProductTrace true true (.loaded 200 true) (.loaded 500 true)).count UploadEv.onErrorCall = 1) :=
  terminal_callback_exclusive true true (.loaded 200 true) (.loaded 500 true)
    (by decide) (by decide)

/-! ### C2 — sequencing of the two transfers -/

/-- C2 counterexample. With a primary outcome of status 200 and an
unparseable body, the primary transfer fails (`onError` fires, trace
position 1) and yet the secondary transfer is still dispatched — "on
primary failure the secondary is never dispatched" does not hold. -/
theorem secondary_dispatched_after_primary_error :
    saveProductTrace true true (.loaded 200 false) .netError
      = [.dispatch false, .onErrorCall, .dispatch true, .onErrorCall]
  ∧ UploadEv.dispatch true ∈ saveProductTrace true true (.loaded 200 false) .netError
  ∧ (saveProductTrace true true (.loaded 200 false) .netError).take 2
      = [.dispatch false, .onErrorCall] := by
  decide

/-- C2 (amended). Transfers are dispatched strictly sequentially in the
order [primary, secondary] (the dispatch list is a sublist of
`[false, true]`); with both files absent, `onSuccess` is invoked with
zero transport calls; with both present and both responses clean 2xx,
exactly two dispatches occur in order followed by one `onSuccess`; and
the secondary is dispatched iff the primary's response had a
success-range status — including the malformed-body case in which the
primary fired `onError` — not only when the primary succeeded. -/
theorem sequential_dispatch_amended (o1 o2 : XhrOutcome) :
    (∀ hasImage hasVideo : Bool,
      (dispatchList (saveProductTrace hasImage hasVideo o1 o2)).Sublist [false, true])
  ∧ saveProductTrace false false o1 o2 = [UploadEv.onSuccessCall]
  ∧ (∀ s1 s2 : ℕ, 200 ≤ s1 → s1 < 300 → 200 ≤ s2 → s2 < 300 →
      saveProductTrace true true (.loaded s1 true) (.loaded s2 true)
        = [.dispatch false, .dispatch true, .onSuccessCall])
  ∧ (UploadEv.dispatch true ∈ saveProductTrace true true o1 o2 ↔ okStatus o1 = true) := by
  refine ⟨?_, rfl, ?_, ?_⟩
  · intro hasImage hasVideo
    cases hasImage <;> cases hasVideo
    · rw [show saveProductTrace false false o1 o2 = [UploadEv.onSuccessCall] from rfl]
      decide
    · rw [show saveProductTrace false true o1 o2
          = uploadProductFileTrace true o2 [UploadEv.onSuccessCall] from rfl,
        dispatchList_uploadTrace]
      split <;> simp [dispatchList]
    · rw [show saveProductTrace true false o1 o2
          = uploadProductFileTrace false o1 [UploadEv.onSuccessCall] from rfl,
        dispatchList_uploadTrace]
      split <;> simp [dispatchList]
    · rw [show saveProductTrace true true o1 o2
          = uploadProductFileTrace false o1
              (uploadProductFileTrace true o2 [UploadEv.onSuccessCall]) from rfl,
        dispatchList_uploadTrace, dispatchList_uploadTrace]
      by_cases hA : okStatus o1 = true <;> by_cases hB : okStatus o2 = true <;>
        simp [hA, hB, dispatchList]
  · intro s1 s2 h1 h2 h3 h4
    rw [show saveProductTrace true true (XhrOutcome.loaded s1 true) (XhrOutcome.loaded s2 true)
        = uploadProductFileTrace false (XhrOutcome.loaded s1 true)
            (uploadProductFileTrace true (XhrOutcome.loaded s2 true) [UploadEv.onSuccessCall]) from rfl]
    simp [uploadProductFileTrace, h1, h2, h3, h4]
  · rw [show saveProductTrace true true o1 o2
        = uploadProductFileTrace false o1
            (uploadProductFileTrace true o2 [UploadEv.onSuccessCall]) from rfl,
      mem_dispatch_uploadTrace, mem_dispatch_uploadTrace]
    simp

/-- Witness for C2: clean 2xx statuses 200 and 204 give the exact
two-dispatch success trace. -/
theorem sequential_dispatch_amended_witness :
    saveProductTrace true true (.loaded 200 true) (.loaded 204 true)
      = [.dispatch false, .dispatch true, .onSuccessCall] :=
  (sequential_dispatch_amended (.loaded 200 true) (.loaded 204 true)).2.2.1 200 204
    (by norm_num) (by norm_num) (by norm_num) (by norm_num)

end Magazin
